import Mathlib

/-!
Verification of the TetraCryptPQC_Nexus monitoring loop (`src/monitor.py`)
and Caldera plugin stub (`src/pqc_plugin.py`).

The embedding models each Python method as a pure Lean function that returns
the sequence of observable events it performs, together with its result and
the (unchanged or changed) object state.  Exceptions raised by the external
probes are modelled by an oracle `fails : Check → Bool` saying, for a given
loop iteration, which probe calls would raise an `Exception`; Python control
flow (a raise aborts the rest of the `try` block and transfers to the
`except` handler) is embedded explicitly.
-/

/-- The six external probe calls made by `SecurityMonitor.monitor`, in the
order they appear in the `try` block (monitor.py lines 25-32). -/
inductive Check where
  | check_keys
  | check_privacy
  | detect_anomalies
  | scan_system
  | monitor_host
  | run_pentest
deriving DecidableEq, Repr

/-- The textual order of the probe calls inside the `try` block:
`self.key_manager.check_keys()`, `self.tf_privacy.check_privacy()`,
`self.clip.detect_anomalies()`, `self.deepexploit.scan_system()`,
`self.aihids.monitor_host()`, `self.caldera.run_pentest()`. -/
def checkOrder : List Check :=
  [Check.check_keys, Check.check_privacy, Check.detect_anomalies,
   Check.scan_system, Check.monitor_host, Check.run_pentest]

/-- Observable events of one iteration of the `while True` loop:
a probe call being made, an `Exception` escaping that call, the
`self.log_status(key_status)` call, the `time.sleep(60)` call and the
`print(f"Monitoring error: ...")` in the `except` handler. -/
inductive Event where
  | invoke (c : Check)
  | raised (c : Check)
  | logStatus
  | sleep (n : Nat)
  | printError
deriving DecidableEq, Repr

/-- Run the probe calls of the `try` block in textual order.  A call that
raises emits `invoke c` then `raised c` and aborts the remaining statements,
returning the escaping exception (`some c`); otherwise the next call runs. -/
def runChecks (fails : Check → Bool) : List Check → List Event × Option Check
  | [] => ([], none)
  | c :: rest =>
    if fails c then
      ([Event.invoke c, Event.raised c], some c)
    else
      (Event.invoke c :: (runChecks fails rest).1, (runChecks fails rest).2)

/-- The whole `try` block (monitor.py lines 23-38): the six probe calls,
then — only if none raised — `self.log_status(key_status)` and
`time.sleep(60)`.  Returns the events performed and the exception escaping
the block, if any. -/
def tryBlockEvents (fails : Check → Bool) : List Event × Option Check :=
  match runChecks fails checkOrder with
  | (evs, some c) => (evs, some c)
  | (evs, none) => (evs ++ [Event.logStatus, Event.sleep 60], none)

/-- The `except Exception as e` clause catches every probe exception, since
all probe errors are `Exception` instances. -/
def handlerCatches (_c : Check) : Bool := true

/-- The events of one full iteration of the `while True` loop body: the
`try` block, followed by the handler body `print(f"Monitoring error: ...")`
whenever an exception escaped the block and is caught. -/
def loopBodyEvents (fails : Check → Bool) : List Event :=
  match tryBlockEvents fails with
  | (evs, none) => evs
  | (evs, some c) => if handlerCatches c then evs ++ [Event.printError] else evs

/-- What the loop does after one iteration: continue with the next
iteration, or exit with an uncaught exception. -/
inductive ControlFlow where
  | next
  | exit
deriving DecidableEq, Repr

/-- Control flow after one iteration of the loop body: an exception escaping
the `try` block terminates the loop unless the `except` handler catches it;
the handler body (a `print`) completes normally, so a caught exception
continues the loop. -/
def loopBodyControl (fails : Check → Bool) : ControlFlow :=
  match (tryBlockEvents fails).2 with
  | none => ControlFlow.next
  | some c => if handlerCatches c then ControlFlow.next else ControlFlow.exit

/-- The `while True` loop, observed for `fuel` iterations starting at
iteration index `k`; `failsAt k` is the failure oracle of iteration `k`.
Returns the per-iteration event logs; the loop stops early only if an
iteration's control flow is `exit`. -/
def monitorLoop (failsAt : Nat → Check → Bool) : Nat → Nat → List (List Event)
  | 0, _ => []
  | fuel + 1, k =>
    match loopBodyControl (failsAt k) with
    | ControlFlow.next => loopBodyEvents (failsAt k) :: monitorLoop failsAt fuel (k + 1)
    | ControlFlow.exit => [loopBodyEvents (failsAt k)]

/-- The event log of iteration `k` when the loop is observed for `n`
iterations from iteration 0 (empty if the loop exited before `k`). -/
def iterationLog (failsAt : Nat → Check → Bool) (n k : Nat) : List Event :=
  (monitorLoop failsAt n 0).getD k []

/-- The probes actually called during a list of events. -/
def invokedChecks (evs : List Event) : List Check :=
  evs.filterMap fun e =>
    match e with
    | Event.invoke c => some c
    | _ => none

/-- Wall-clock duration of one event, given the duration `dur c` of each
probe call: a `time.sleep(n)` takes `n` seconds, raising, printing and the
no-op logger take no modelled time. -/
def eventDuration (dur : Check → Nat) : Event → Nat
  | Event.invoke c => dur c
  | Event.sleep n => n
  | _ => 0

/-- Total time spent in the probe calls of one iteration. -/
def checksDuration (dur : Check → Nat) (fails : Check → Bool) : Nat :=
  ((invokedChecks (loopBodyEvents fails)).map dur).sum

/-- Time from the start of one iteration to the start of the next: the sum
of the durations of all events the iteration performs. -/
def iterationPeriod (dur : Check → Nat) (fails : Check → Bool) : Nat :=
  ((loopBodyEvents fails).map (eventDuration dur)).sum

/-- Modelled from the spec: the wall-clock aligned tick period the spec
describes — the loop "waits until `interval` has elapsed since the tick
started", and "if a cycle overruns the interval, the next tick starts
immediately", i.e. the next tick starts `max interval work` after the tick
started.  Stated from the spec's words, for comparison with
`iterationPeriod`, which is derived from the code. -/
def specAlignedPeriod (interval : Nat) (dur : Check → Nat) (fails : Check → Bool) : Nat :=
  max interval (checksDuration dur fails)

/-- A minimal model of Python values for the arguments and results that the
claims mention: `None`, strings, booleans and integers. -/
inductive PyValue where
  | none
  | str (s : String)
  | bool (b : Bool)
  | int (n : Int)
deriving DecidableEq, Repr

/-- The `SecurityMonitor` object state: the six manager objects created in
`__init__` (monitor.py lines 13-19).  Their contents are opaque to the
monitor, so the field type is a parameter. -/
structure SecurityMonitor (H : Type) where
  key_manager : H
  tf_privacy : H
  clip : H
  deepexploit : H
  aihids : H
  caldera : H
deriving DecidableEq, Repr

/-- The method `SecurityMonitor.log_status` (monitor.py lines 42-44): its
body is the single statement `pass`, so it changes no field of `self`,
performs no events, and — as a Python function without a `return`
statement — returns `None`. -/
def log_status {H : Type} (self : SecurityMonitor H) (_key_status : PyValue) :
    SecurityMonitor H × PyValue × List Event :=
  (self, PyValue.none, [])

/-- The key pairs the external `pqcrypto` library would generate during one
`execute` call: `pqcrypto.kem.kyber512.keypair()` and
`pqcrypto.sign.dilithium2.keypair()` are external, so their outputs are
inputs of the model. -/
structure KeyGenEnv (PK SK : Type) where
  kyber : PK × SK
  dilithium : PK × SK

/-- Observable events of `PQCPlugin.execute`: `self.log.info(msg)` calls
and the two key-generation calls, each carrying the key pair it produced. -/
inductive PluginAction (PK SK : Type) where
  | logInfo (msg : String)
  | kyber512_keypair (public_key : PK) (private_key : SK)
  | dilithium2_keypair (public_key : PK) (private_key : SK)
deriving DecidableEq, Repr

/-- The kind of a key-generation call, for stating which key-generation
calls occur and in which order. -/
inductive KGKind where
  | kyber512
  | dilithium2
deriving DecidableEq, Repr

/-- Select the key-generation calls out of an `execute` action trace. -/
def keyGenKind {PK SK : Type} : PluginAction PK SK → Option KGKind
  | PluginAction.kyber512_keypair _ _ => some KGKind.kyber512
  | PluginAction.dilithium2_keypair _ _ => some KGKind.dilithium2
  | PluginAction.logInfo _ => none

/-- The `PQCPlugin` object state set by `__init__` (pqc_plugin.py lines
6-9): a name and a description; no key material is ever stored on it. -/
structure PQCPlugin where
  name : String
  description : String
deriving DecidableEq, Repr

/-- The object built by `PQCPlugin.__init__`. -/
def PQCPlugin.new : PQCPlugin :=
  { name := "PQC Plugin", description := "Plugin for AI-powered PQC testing" }

/-- The method `PQCPlugin.execute(self, operation)` (pqc_plugin.py lines
15-27): logs, generates a Kyber512 KEM key pair, logs, generates a
Dilithium2 signature key pair into the same two local variables
(overwriting the Kyber pair), logs, and returns `True`.  The `operation`
argument is never read.  Result: the final object state, the returned
value, and the action trace. -/
def PQCPlugin.execute {Op PK SK : Type} (self : PQCPlugin) (_operation : Op)
    (env : KeyGenEnv PK SK) : PQCPlugin × Bool × List (PluginAction PK SK) :=
  (self, true,
    [PluginAction.logInfo "Executing PQC testing",
     PluginAction.kyber512_keypair env.kyber.1 env.kyber.2,
     PluginAction.logInfo "Generated Kyber key pair",
     PluginAction.dilithium2_keypair env.dilithium.1 env.dilithium.2,
     PluginAction.logInfo "Generated Dilithium key pair"])

/-- Line 1 of pqc_plugin.py, verbatim. -/
def pqc_plugin_line1 : String := "nomad status tetracrypt"

/-- Line 2 of pqc_plugin.py, verbatim. -/
def pqc_plugin_line2 : String := "podman psimport pqcrypto"

/-- The line number at which the `class PQCPlugin(Plugin):` statement of
pqc_plugin.py begins. -/
def pqc_plugin_classdef_lineno : Nat := 5

/-- The reserved keywords of Python 3. -/
def pythonKeywords : List String :=
  ["False", "None", "True", "and", "as", "assert", "async", "await",
   "break", "class", "continue", "def", "del", "elif", "else", "except",
   "finally", "for", "from", "global", "if", "import", "in", "is",
   "lambda", "nonlocal", "not", "or", "pass", "raise", "return", "try",
   "while", "with", "yield"]

/-- Split a list of characters into space-separated words. -/
def splitWordsAux (cur : List Char) : List Char → List (List Char)
  | [] => [cur.reverse]
  | c :: rest =>
    if c = ' ' then cur.reverse :: splitWordsAux [] rest
    else splitWordsAux (c :: cur) rest

/-- The space-separated words of a source line. -/
def lineWords (line : String) : List (List Char) :=
  splitWordsAux [] line.toList

/-- A word made only of letters and underscores, so it tokenizes as a
single NAME token in Python (none of the words on the two lines in
question contain digits). -/
def isPlainName (w : List Char) : Bool :=
  w.length != 0 && w.all (fun c => c.isAlpha || c = '_')

/-- Modelled from the spec: the CPython parser is not part of this
repository, so Python syntactic validity is modelled from the spec's open
question that these bare shell commands "are not valid executable code".
The modelled grammar rule: a logical line whose first two
whitespace-separated words are both plain NAME tokens, with the first not a
reserved keyword, matches no production of Python's statement grammar (a
statement never begins with two adjacent NAME tokens when the first is not
a keyword), so such a line is a syntax error and the module fails to parse. -/
def modelledInvalidStmtLine (line : String) : Bool :=
  match lineWords line with
  | w1 :: w2 :: _ =>
    isPlainName w1 && isPlainName w2 &&
      !((pythonKeywords.map String.toList).contains w1)
  | _ => false

/-! Helper lemmas about the loop model. -/

lemma runChecks_snd (fails : Check → Bool) :
    ∀ l : List Check, (runChecks fails l).2 = l.find? fails
  | [] => rfl
  | c :: rest => by
    by_cases h : fails c
    · simp [runChecks, h, List.find?_cons]
    · simp [runChecks, h, List.find?_cons, runChecks_snd fails rest]

lemma mem_checkOrder (c : Check) : c ∈ checkOrder := by
  cases c <;> simp [checkOrder]

lemma exists_escape {fails : Check → Bool} (h : ∃ c, fails c = true) :
    ∃ c, (runChecks fails checkOrder).2 = some c := by
  obtain ⟨c, hc⟩ := h
  have hs : (checkOrder.find? fails).isSome := by
    rw [List.find?_isSome]
    exact ⟨c, mem_checkOrder c, hc⟩
  rw [runChecks_snd]
  exact Option.isSome_iff_exists.mp hs

lemma loopBodyEvents_fail {fails : Check → Bool} {c : Check}
    (h : (runChecks fails checkOrder).2 = some c) :
    loopBodyEvents fails = (runChecks fails checkOrder).1 ++ [Event.printError] := by
  rcases hr : runChecks fails checkOrder with ⟨evs, o⟩
  rw [hr] at h
  simp only at h
  subst h
  simp [loopBodyEvents, tryBlockEvents, hr, handlerCatches]

lemma loopBodyEvents_ok {fails : Check → Bool}
    (h : (runChecks fails checkOrder).2 = none) :
    loopBodyEvents fails =
      (runChecks fails checkOrder).1 ++ [Event.logStatus, Event.sleep 60] := by
  rcases hr : runChecks fails checkOrder with ⟨evs, o⟩
  rw [hr] at h
  simp only at h
  subst h
  simp [loopBodyEvents, tryBlockEvents, hr]

lemma loopBodyControl_next (fails : Check → Bool) :
    loopBodyControl fails = ControlFlow.next := by
  rcases h : (tryBlockEvents fails).2 with _ | c <;>
    simp [loopBodyControl, h, handlerCatches]

lemma monitorLoop_length (failsAt : Nat → Check → Bool) :
    ∀ n k, (monitorLoop failsAt n k).length = n := by
  intro n
  induction n with
  | zero => intro k; rfl
  | succ m ih =>
    intro k
    simp [monitorLoop, loopBodyControl_next, ih]

lemma monitorLoop_getD (failsAt : Nat → Check → Bool) :
    ∀ n k j, j < n →
      (monitorLoop failsAt n k).getD j [] = loopBodyEvents (failsAt (k + j)) := by
  intro n
  induction n with
  | zero => intro k j hj; omega
  | succ m ih =>
    intro k j hj
    rw [monitorLoop, loopBodyControl_next]
    cases j with
    | zero => simp
    | succ i =>
      have := ih (k + 1) i (by omega)
      simpa [Nat.add_assoc, Nat.add_comm 1 i] using this

lemma runChecks_event_shapes (fails : Check → Bool) :
    ∀ l, ∀ e ∈ (runChecks fails l).1,
      (∃ c, e = Event.invoke c) ∨ (∃ c, e = Event.raised c) := by
  intro l
  induction l with
  | nil => intro e he; simp [runChecks] at he
  | cons c rest ih =>
    intro e he
    by_cases h : fails c
    · simp [runChecks, h] at he
      rcases he with he | he
      · exact Or.inl ⟨c, he⟩
      · exact Or.inr ⟨c, he⟩
    · simp [runChecks, h] at he
      rcases he with he | he
      · exact Or.inl ⟨c, he⟩
      · exact ih e he

lemma sumDur_runChecks (dur : Check → Nat) (fails : Check → Bool) :
    ∀ l, (((runChecks fails l).1).map (eventDuration dur)).sum =
      ((invokedChecks (runChecks fails l).1).map dur).sum := by
  intro l
  induction l with
  | nil => rfl
  | cons c rest ih =>
    by_cases h : fails c
    · simp [runChecks, h, invokedChecks, eventDuration]
    · simp [runChecks, h, invokedChecks, List.filterMap_cons, eventDuration] at ih ⊢
      omega

lemma invoke_mem_iff {d : Check} {evs : List Event} :
    Event.invoke d ∈ evs ↔ d ∈ invokedChecks evs := by
  simp only [invokedChecks, List.mem_filterMap]
  constructor
  · intro h
    exact ⟨Event.invoke d, h, rfl⟩
  · rintro ⟨a, ha, hm⟩
    cases a <;> simp at hm
    rwa [hm] at ha

lemma invokedChecks_append (l1 l2 : List Event) :
    invokedChecks (l1 ++ l2) = invokedChecks l1 ++ invokedChecks l2 := by
  simp [invokedChecks, List.filterMap_append]

lemma invokedChecks_map_invoke : ∀ l : List Check,
    invokedChecks (l.map Event.invoke) = l := by
  intro l
  induction l with
  | nil => rfl
  | cons a rest ih =>
    simp only [List.map_cons, invokedChecks, List.filterMap_cons] at ih ⊢
    rw [ih]

lemma runChecks_split (fails : Check → Bool) :
    ∀ (pre : List Check) (c : Check) (rest : List Check),
      (∀ d ∈ pre, fails d = false) → fails c = true →
      runChecks fails (pre ++ c :: rest) =
        (pre.map Event.invoke ++ [Event.invoke c, Event.raised c], some c) := by
  intro pre
  induction pre with
  | nil =>
    intro c rest _ hc
    simp [runChecks, hc]
  | cons a pre ih =>
    intro c rest hpre hc
    have ha : fails a = false := hpre a (List.mem_cons_self a pre)
    have hrec := ih c rest (fun d hd => hpre d (List.mem_cons_of_mem a hd)) hc
    simp [runChecks, ha, hrec]

lemma runChecks_all_pass (fails : Check → Bool) :
    ∀ l, (∀ c ∈ l, fails c = false) →
      runChecks fails l = (l.map Event.invoke, none) := by
  intro l
  induction l with
  | nil => intro _; rfl
  | cons a rest ih =>
    intro h
    have ha : fails a = false := h a (List.mem_cons_self a rest)
    simp [runChecks, ha, ih (fun d hd => h d (List.mem_cons_of_mem a hd))]

lemma iterationPeriod_fail {dur : Check → Nat} {fails : Check → Bool} {c : Check}
    (h : (runChecks fails checkOrder).2 = some c) :
    iterationPeriod dur fails = checksDuration dur fails := by
  have hs := sumDur_runChecks dur fails checkOrder
  unfold iterationPeriod checksDuration
  rw [loopBodyEvents_fail h]
  simpa [List.filterMap_append, invokedChecks, eventDuration] using hs

lemma iterationPeriod_ok {dur : Check → Nat} {fails : Check → Bool}
    (h : (runChecks fails checkOrder).2 = none) :
    iterationPeriod dur fails = checksDuration dur fails + 60 := by
  have hs := sumDur_runChecks dur fails checkOrder
  unfold iterationPeriod checksDuration
  rw [loopBodyEvents_ok h]
  simp [List.filterMap_append, invokedChecks, eventDuration] at hs ⊢
  omega

/-! Claim theorems. -/

/-- C1: the monitoring loop never terminates because of a probe error.  In
every iteration `k` in which some check raises an `Exception`, the handler
catches the exception (the iteration's control flow is `next` and the
handler's `print` appears in its event log), the loop runs all `n` observed
iterations with none missing, and iteration `k + 1` is still executed. -/
theorem c1_monitor_loop_survives_probe_errors
    (failsAt : Nat → Check → Bool) (n k : Nat) (hk : k < n)
    (hfail : ∃ c, failsAt k c = true) :
    loopBodyControl (failsAt k) = ControlFlow.next ∧
    Event.printError ∈ iterationLog failsAt n k ∧
    (monitorLoop failsAt n 0).length = n ∧
    (k + 1 < n →
      iterationLog failsAt n (k + 1) = loopBodyEvents (failsAt (k + 1))) := by
  obtain ⟨c, hc⟩ := exists_escape hfail
  refine ⟨loopBodyControl_next _, ?_, monitorLoop_length failsAt n 0, ?_⟩
  · rw [iterationLog, monitorLoop_getD failsAt n 0 k hk, Nat.zero_add,
      loopBodyEvents_fail hc]
    simp
  · intro h
    rw [iterationLog, monitorLoop_getD failsAt n 0 (k + 1) h, Nat.zero_add]

/-- Witness for C1: iteration 0 of a run in which `check_keys` always
raises is caught and iteration 1 still executes. -/
theorem c1_witness :
    0 < 2 ∧
    (loopBodyControl ((fun _ c => decide (c = Check.check_keys)) 0) = ControlFlow.next ∧
     Event.printError ∈ iterationLog (fun _ c => decide (c = Check.check_keys)) 2 0 ∧
     (monitorLoop (fun _ c => decide (c = Check.check_keys)) 2 0).length = 2 ∧
     (0 + 1 < 2 →
       iterationLog (fun _ c => decide (c = Check.check_keys)) 2 (0 + 1) =
         loopBodyEvents ((fun _ c => decide (c = Check.check_keys)) (0 + 1)))) :=
  ⟨by decide,
   c1_monitor_loop_survives_probe_errors (fun _ c => decide (c = Check.check_keys))
     2 0 (by decide) ⟨Check.check_keys, by decide⟩⟩

/-- C2 as stated is false: in the iteration in which `check_keys` raises,
the remaining checks are not invoked — `check_privacy` never runs, because
the single `try` block wraps all six calls, so the first raise aborts the
rest of the cycle (the loop itself does continue). -/
theorem c2_counterexample :
    (fun c => decide (c = Check.check_keys)) Check.check_keys = true ∧
    Event.invoke Check.check_privacy ∉
      loopBodyEvents (fun c => decide (c = Check.check_keys)) ∧
    loopBodyControl (fun c => decide (c = Check.check_keys)) = ControlFlow.next := by
  decide

/-- C2 amended: when a check raises, the checks before it and the failing
check itself are the only ones invoked in that iteration — every check
after it is skipped — but the failure does not abort the loop: control
flow is still `next`. -/
theorem c2_failure_aborts_rest_of_cycle_not_loop
    (fails : Check → Bool) (pre : List Check) (c : Check) (rest : List Check)
    (hdec : checkOrder = pre ++ c :: rest)
    (hpre : ∀ d ∈ pre, fails d = false) (hc : fails c = true) :
    invokedChecks (loopBodyEvents fails) = pre ++ [c] ∧
    (∀ d ∈ rest, Event.invoke d ∉ loopBodyEvents fails) ∧
    loopBodyControl fails = ControlFlow.next := by
  have hrun : runChecks fails checkOrder =
      (pre.map Event.invoke ++ [Event.invoke c, Event.raised c], some c) := by
    rw [hdec]; exact runChecks_split fails pre c rest hpre hc
  have hsnd : (runChecks fails checkOrder).2 = some c := by rw [hrun]
  have hev := loopBodyEvents_fail hsnd
  rw [hrun] at hev
  have hinv : invokedChecks (loopBodyEvents fails) = pre ++ [c] := by
    rw [hev]
    show invokedChecks
      ((pre.map Event.invoke ++ [Event.invoke c, Event.raised c]) ++
        [Event.printError]) = pre ++ [c]
    rw [invokedChecks_append, invokedChecks_append, invokedChecks_map_invoke]
    simp [invokedChecks]
  refine ⟨hinv, ?_, loopBodyControl_next fails⟩
  intro d hd hmem
  have hnd : (pre ++ c :: rest).Nodup := by rw [← hdec]; decide
  obtain ⟨-, hnd2, hdisj⟩ := List.nodup_append.mp hnd
  have hdpre : d ∉ pre := fun hdp => hdisj hdp (List.mem_cons_of_mem c hd)
  have hdc : d ≠ c := by
    intro he
    exact (List.nodup_cons.mp hnd2).1 (he ▸ hd)
  have hmem2 : d ∈ invokedChecks (loopBodyEvents fails) := invoke_mem_iff.mp hmem
  rw [hinv] at hmem2
  rcases List.mem_append.mp hmem2 with h1 | h1
  · exact hdpre h1
  · exact hdc (List.mem_singleton.mp h1)

/-- Witness for C2 amended: with `detect_anomalies` raising, only
`check_keys`, `check_privacy` and `detect_anomalies` are invoked, the last
three checks are skipped, and the loop continues. -/
theorem c2_witness :
    checkOrder = [Check.check_keys, Check.check_privacy] ++
      Check.detect_anomalies ::
        [Check.scan_system, Check.monitor_host, Check.run_pentest] ∧
    (invokedChecks (loopBodyEvents (fun c => decide (c = Check.detect_anomalies))) =
        [Check.check_keys, Check.check_privacy] ++ [Check.detect_anomalies] ∧
     (∀ d ∈ [Check.scan_system, Check.monitor_host, Check.run_pentest],
        Event.invoke d ∉
          loopBodyEvents (fun c => decide (c = Check.detect_anomalies))) ∧
     loopBodyControl (fun c => decide (c = Check.detect_anomalies)) =
       ControlFlow.next) :=
  ⟨by decide,
   c2_failure_aborts_rest_of_cycle_not_loop
     (fun c => decide (c = Check.detect_anomalies))
     [Check.check_keys, Check.check_privacy] Check.detect_anomalies
     [Check.scan_system, Check.monitor_host, Check.run_pentest]
     (by decide) (by decide) (by decide)⟩

/-- C3 as stated is false: in the iteration in which `check_privacy`
raises, `detect_anomalies` (and everything after it) is not invoked, so not
every registered check is invoked once per iteration "regardless of
individual failures". -/
theorem c3_counterexample :
    (fun c => decide (c = Check.check_privacy)) Check.check_privacy = true ∧
    Event.invoke Check.check_keys ∈
      loopBodyEvents (fun c => decide (c = Check.check_privacy)) ∧
    Event.invoke Check.detect_anomalies ∉
      loopBodyEvents (fun c => decide (c = Check.check_privacy)) := by
  decide

/-- C3 amended: only in iterations where no check raises is every check
invoked exactly once, in the textual registration order `check_keys`,
`check_privacy`, `detect_anomalies`, `scan_system`, `monitor_host`,
`run_pentest` (the invoked-check list equals `checkOrder`); no structured
report is recorded in any case. -/
theorem c3_complete_ordered_cycle_only_without_failures
    (fails : Check → Bool) (h : ∀ c, fails c = false) :
    invokedChecks (loopBodyEvents fails) = checkOrder := by
  have hall := runChecks_all_pass fails checkOrder (fun c _ => h c)
  have hnone : (runChecks fails checkOrder).2 = none := by rw [hall]
  rw [loopBodyEvents_ok hnone, hall]
  show invokedChecks
    (checkOrder.map Event.invoke ++ [Event.logStatus, Event.sleep 60]) = checkOrder
  rw [invokedChecks_append, invokedChecks_map_invoke]
  simp [invokedChecks]

/-- Witness for C3 amended: an iteration with no failures invokes all six
checks in textual order. -/
theorem c3_witness :
    (∀ c : Check, (fun _ => false : Check → Bool) c = false) ∧
    invokedChecks (loopBodyEvents (fun _ => false)) = checkOrder :=
  ⟨fun _ => rfl,
   c3_complete_ordered_cycle_only_without_failures (fun _ => false) (fun _ => rfl)⟩

/-- C4 as stated is false: when `scan_system` raises, the exception escapes
the probe call into the loop body — the rest of the `try` block
(`monitor_host`, `run_pentest`, `log_status`) is aborted and the only
handling is the loop-level `except Exception` clause (`printError`); no
per-unit capture or outcome value exists in the code. -/
theorem c4_counterexample :
    Event.raised Check.scan_system ∈
      loopBodyEvents (fun c => decide (c = Check.scan_system)) ∧
    Event.printError ∈ loopBodyEvents (fun c => decide (c = Check.scan_system)) ∧
    Event.invoke Check.monitor_host ∉
      loopBodyEvents (fun c => decide (c = Check.scan_system)) ∧
    Event.logStatus ∉ loopBodyEvents (fun c => decide (c = Check.scan_system)) := by
  decide

/-- C4 amended: a probe failure propagates out of the check call as a
raised exception and is handled only by the loop-level catch-all: the
iteration's full event log is the successful calls, the failing call, its
escaping exception, and the handler's `print` — with no per-unit outcome
conversion in between. -/
theorem c4_probe_error_reaches_loop_level_handler
    (fails : Check → Bool) (pre : List Check) (c : Check) (rest : List Check)
    (hdec : checkOrder = pre ++ c :: rest)
    (hpre : ∀ d ∈ pre, fails d = false) (hc : fails c = true) :
    loopBodyEvents fails =
      pre.map Event.invoke ++
        [Event.invoke c, Event.raised c, Event.printError] := by
  have hrun : runChecks fails checkOrder =
      (pre.map Event.invoke ++ [Event.invoke c, Event.raised c], some c) := by
    rw [hdec]; exact runChecks_split fails pre c rest hpre hc
  have hsnd : (runChecks fails checkOrder).2 = some c := by rw [hrun]
  have hev := loopBodyEvents_fail hsnd
  rw [hrun] at hev
  rw [hev]
  simp

/-- Witness for C4 amended: with `monitor_host` raising, the iteration's
event log is the four successful calls, the failing call, the escaping
exception and the loop-level handler's `print`. -/
theorem c4_witness :
    checkOrder = [Check.check_keys, Check.check_privacy, Check.detect_anomalies,
      Check.scan_system] ++ Check.monitor_host :: [Check.run_pentest] ∧
    loopBodyEvents (fun c => decide (c = Check.monitor_host)) =
      [Check.check_keys, Check.check_privacy, Check.detect_anomalies,
        Check.scan_system].map Event.invoke ++
        [Event.invoke Check.monitor_host, Event.raised Check.monitor_host,
         Event.printError] :=
  ⟨by decide,
   c4_probe_error_reaches_loop_level_handler
     (fun c => decide (c = Check.monitor_host))
     [Check.check_keys, Check.check_privacy, Check.detect_anomalies,
      Check.scan_system] Check.monitor_host [Check.run_pentest]
     (by decide) (by decide) (by decide)⟩

/-- C5 as stated is false: with every check taking 10 seconds and no
failures, the work of a tick lasts 60 seconds, so a wall-clock aligned
60-second cadence would start the next tick immediately (period 60); the
code instead sleeps a fixed 60 seconds after the work finishes, giving a
period of 120 seconds. -/
theorem c5_counterexample :
    iterationPeriod (fun _ => 10) (fun _ => false) = 120 ∧
    specAlignedPeriod 60 (fun _ => 10) (fun _ => false) = 60 := by
  decide

/-- C5 amended: in an iteration with no failures the loop sleeps a fixed 60
seconds measured from when the work finished, so the time from one tick
start to the next is the checks' total duration plus 60 — there is no
wall-clock alignment to the interval and no immediate restart on overrun. -/
theorem c5_fixed_sleep_after_work
    (dur : Check → Nat) (fails : Check → Bool) (h : ∀ c, fails c = false) :
    iterationPeriod dur fails = checksDuration dur fails + 60 := by
  have hall := runChecks_all_pass fails checkOrder (fun c _ => h c)
  have hnone : (runChecks fails checkOrder).2 = none := by rw [hall]
  exact iterationPeriod_ok hnone

/-- Witness for C5 amended: ten-second checks and no failures give a
120-second period, the 60-second work plus the fixed 60-second sleep. -/
theorem c5_witness :
    (∀ c : Check, (fun _ => false : Check → Bool) c = false) ∧
    iterationPeriod (fun _ => 10) (fun _ => false) =
      checksDuration (fun _ => 10) (fun _ => false) + 60 :=
  ⟨fun _ => rfl, c5_fixed_sleep_after_work (fun _ => 10) (fun _ => false) (fun _ => rfl)⟩

/-- C6: when any check of an iteration raises, the `time.sleep(60)` at the
end of the `try` block is skipped and the iteration's whole duration is
just the invoked checks' work, so the next iteration begins immediately and
a persistently failing check makes the loop poll back-to-back with no
60-second interval. -/
theorem c6_failing_iteration_skips_sleep
    (dur : Check → Nat) (fails : Check → Bool) (h : ∃ c, fails c = true) :
    Event.sleep 60 ∉ loopBodyEvents fails ∧
    iterationPeriod dur fails = checksDuration dur fails := by
  obtain ⟨c, hc⟩ := exists_escape h
  refine ⟨?_, iterationPeriod_fail hc⟩
  rw [loopBodyEvents_fail hc]
  intro hmem
  rcases List.mem_append.mp hmem with h1 | h1
  · rcases runChecks_event_shapes fails checkOrder _ h1 with ⟨d, hd⟩ | ⟨d, hd⟩ <;>
      exact Event.noConfusion hd
  · exact Event.noConfusion (List.mem_singleton.mp h1)

/-- Witness for C6: with `run_pentest` always raising and three-second
checks, the iteration performs no sleep and lasts exactly the checks'
duration. -/
theorem c6_witness :
    (∃ c, (fun c => decide (c = Check.run_pentest)) c = true) ∧
    (Event.sleep 60 ∉ loopBodyEvents (fun c => decide (c = Check.run_pentest)) ∧
     iterationPeriod (fun _ => 3) (fun c => decide (c = Check.run_pentest)) =
       checksDuration (fun _ => 3) (fun c => decide (c = Check.run_pentest))) :=
  ⟨⟨Check.run_pentest, by decide⟩,
   c6_failing_iteration_skips_sleep (fun _ => 3)
     (fun c => decide (c = Check.run_pentest)) ⟨Check.run_pentest, by decide⟩⟩

/-- C7: `SecurityMonitor.log_status` is a no-op — for every monitor state
and every `key_status` value it returns the state unchanged, the Python
return value `None`, and an empty event list. -/
theorem c7_log_status_is_noop {H : Type} (self : SecurityMonitor H)
    (key_status : PyValue) :
    log_status self key_status = (self, PyValue.none, ([] : List Event)) :=
  rfl

/-- C8: for every `operation` argument and every pair of externally
generated keys, `PQCPlugin.execute` performs exactly two key-generation
calls — a Kyber512 KEM key pair followed by a Dilithium2 signature key
pair, in that order — and returns `True`, leaving the plugin object
unchanged (no key pair is retained on it). -/
theorem c8_execute_two_keygen_calls_then_true
    {Op PK SK : Type} (self : PQCPlugin) (operation : Op)
    (env : KeyGenEnv PK SK) :
    ((self.execute operation env).2.2).filterMap keyGenKind =
      [KGKind.kyber512, KGKind.dilithium2] ∧
    (self.execute operation env).2.1 = true ∧
    (self.execute operation env).1 = self :=
  ⟨rfl, rfl, rfl⟩

/-- C9: `PQCPlugin.execute` is insensitive to its `operation` parameter:
two runs with any two argument values (even of different types) produce
identical results — the same final state, the same returned `True`, and the
same action trace. -/
theorem c9_execute_ignores_operation
    {Op1 Op2 PK SK : Type} (self : PQCPlugin) (env : KeyGenEnv PK SK)
    (op1 : Op1) (op2 : Op2) :
    self.execute op1 env = self.execute op2 env :=
  rfl

/-- C10: the first two lines of pqc_plugin.py are bare shell commands —
`nomad status tetracrypt`, and `podman ps` fused with the import statement
into `podman psimport pqcrypto` — and each begins with two adjacent plain
NAME tokens whose first word is not a Python keyword, so under the
modelled grammar rule neither is a valid Python statement; both precede the
`class PQCPlugin(Plugin):` statement on line 5, so the module fails to
parse before any class definition takes effect. -/
theorem c10_module_header_is_invalid_python :
    modelledInvalidStmtLine pqc_plugin_line1 = true ∧
    modelledInvalidStmtLine pqc_plugin_line2 = true ∧
    1 < pqc_plugin_classdef_lineno ∧ 2 < pqc_plugin_classdef_lineno := by
  decide
